import Mathlib

/-!
Verification of the giveaway-registration bot (`src/main.py`).

The Python program is shallowly embedded: the Postgres table becomes an
explicit list of rows plus the SERIAL counter, the aiogram handlers become
pure functions from the gate response and the store state to a result
record that also tracks the observable effects (replies sent, gate called,
store read, store written), and the dispatcher's command filters become a
classification function on the message text.
-/

namespace Giveaway

/-- A Telegram user as seen by the handlers (`message.from_user`):
`id`, optional `username`, optional `first_name` / `last_name`.
Python treats both `None` and the empty string as falsy, so optional
text fields are `Option String` and truthiness is checked separately. -/
structure User where
  id : Nat
  username : Option String
  first_name : Option String
  last_name : Option String
deriving DecidableEq

/-- One row of the `participants` table: `id SERIAL PRIMARY KEY`
(the sequence number), `user_id BIGINT UNIQUE`, and the three nullable
display columns. `created_at` carries no logic and is omitted. -/
structure Participant where
  id : Nat
  user_id : Nat
  username : Option String
  first_name : Option String
  last_name : Option String
deriving DecidableEq

/-- The participants table: the rows plus the state of the SERIAL
sequence backing the `id` column (`nextId` is the value the next
`INSERT` will draw). -/
structure DB where
  rows : List Participant
  nextId : Nat
deriving DecidableEq

/-- Python truthiness of an optional string: `None` and `""` are falsy. -/
def truthy : Option String → Bool
  | none => false
  | some s => s != ""

/-- Predicate picking the row of a given external user id. -/
def byUser (uid : Nat) (p : Participant) : Bool :=
  p.user_id == uid

/-- Number of rows the table holds for a given external user id. -/
def countRows (db : DB) (uid : Nat) : Nat :=
  db.rows.countP (byUser uid)

/-- `get_participant`: `SELECT ... FROM participants WHERE user_id = $1`
(first matching row, no side effects). -/
def get_participant (db : DB) (uid : Nat) : Option Participant :=
  db.rows.find? (byUser uid)

/-- `add_participant`: `INSERT ... ON CONFLICT (user_id) DO UPDATE SET
username/first_name/last_name = EXCLUDED... RETURNING id`.  On conflict the
existing row keeps its `id` and only the display columns are overwritten;
the SERIAL sequence is consumed by the attempted insert either way. -/
def add_participant (db : DB) (u : User) : Nat × DB :=
  match db.rows.find? (byUser u.id) with
  | some p =>
      (p.id,
       { rows := db.rows.map fun q =>
           if byUser u.id q then
             { q with username := u.username, first_name := u.first_name,
                      last_name := u.last_name }
           else q,
         nextId := db.nextId + 1 })
  | none =>
      (db.nextId,
       { rows := db.rows ++ [⟨db.nextId, u.id, u.username, u.first_name, u.last_name⟩],
         nextId := db.nextId + 1 })

/-- Ordering of rows by sequence number, used by `list_participants`. -/
def leById (a b : Participant) : Prop :=
  a.id ≤ b.id

instance : DecidableRel leById :=
  fun a b => inferInstanceAs (Decidable (a.id ≤ b.id))

instance : IsTotal Participant leById :=
  ⟨fun a b => Nat.le_total a.id b.id⟩

instance : IsTrans Participant leById :=
  ⟨fun _ _ _ => Nat.le_trans⟩

/-- `list_participants`: `SELECT ... FROM participants ORDER BY id`. -/
def list_participants (db : DB) : List Participant :=
  List.insertionSort leById db.rows

/-- Chat-member statuses the Telegram API can report
(`aiogram.enums.ChatMemberStatus`). -/
inductive ChatMemberStatus where
  | creator
  | administrator
  | member
  | restricted
  | left
  | kicked
deriving DecidableEq

/-- Outcome of the `getChatMember` call inside `check_subscription`:
either a status, or any raised exception / timeout (`error`). -/
inductive GateResult where
  | ok (s : ChatMemberStatus) : GateResult
  | error : GateResult
deriving DecidableEq

/-- `check_subscription`: any exception is caught and mapped to `False`;
otherwise the status must be CREATOR, ADMINISTRATOR, MEMBER or RESTRICTED. -/
def check_subscription : GateResult → Bool
  | .error => false
  | .ok s =>
      s == .creator || s == .administrator || s == .member || s == .restricted

/-- `user.full_name` of aiogram: first and last name joined when the last
name is truthy, otherwise the first name alone. -/
def full_name (u : User) : String :=
  if truthy u.last_name then
    (u.first_name.getD "") ++ " " ++ (u.last_name.getD "")
  else
    u.first_name.getD ""

/-- The mention used in the congratulation:
`"@" + username` when truthy, else `full_name or "участник"`. -/
def mention (u : User) : String :=
  if truthy u.username then "@" ++ (u.username.getD "")
  else if full_name u != "" then full_name u else "участник"

/-- Reply of the already-registered fast path. -/
def alreadyMessage (num : Nat) : String :=
  "Ты уже участвуешь в розыгрыше 🎉\nТвой номер: <b>" ++ toString num ++ "</b>"

/-- Reply sent when the subscription check fails. -/
def subscribeMessage : String :=
  "Пока я не вижу у тебя подписки на канал 😔\n\n" ++
    "1. Подпишись на канал: https://t.me/MM_studio_spb\n" ++
    "2. Потом снова нажми /start у бота."

/-- Reply sent on successful registration. -/
def congratsMessage (m : String) (num : Nat) : String :=
  m ++ ", ты участвуешь в розыгрыше! 🎁\nТвой номер: <b>" ++ toString num ++ "</b>"

/-- Result of one run of the `/start` handler: the resulting table state,
the replies sent, the sequence number shown to the user (if any), and
whether the gate was queried / the store read / the store written. -/
structure StartResult where
  db : DB
  replies : List String
  shownNumber : Option Nat
  gateCalled : Bool
  storeRead : Bool
  storeWritten : Bool
deriving DecidableEq

/-- `cmd_start` — the registration workflow.  `gate` is the live response
of the external membership authority for this invocation. -/
def cmd_start (gate : GateResult) (db : DB) (fromUser : Option User) : StartResult :=
  match fromUser with
  | none => ⟨db, [], none, false, false, false⟩
  | some user =>
    match get_participant db user.id with
    | some row =>
        ⟨db, [alreadyMessage row.id], some row.id, false, true, false⟩
    | none =>
        if check_subscription gate then
          let r := add_participant db user
          ⟨r.2, [congratsMessage (mention user) r.1], some r.1, true, true, true⟩
        else
          ⟨db, [subscribeMessage], none, true, true, false⟩

/-- Python's `str.strip()`: leading and trailing whitespace removed. -/
def pyStrip (s : String) : String :=
  String.mk
    (((s.data.dropWhile Char.isWhitespace).reverse.dropWhile
        Char.isWhitespace).reverse)

/-- Display name used in the admin listing: `"@" + username` when truthy,
else first and last name joined and stripped, else the fixed placeholder. -/
def displayName (p : Participant) : String :=
  if truthy p.username then "@" ++ (p.username.getD "")
  else
    let n := pyStrip ((p.first_name.getD "") ++ " " ++ (p.last_name.getD ""))
    if n == "" then "(без имени)" else n

/-- One line of the admin listing. -/
def renderLine (p : Participant) : String :=
  toString p.id ++ ". " ++ displayName p ++ " (id: " ++ toString p.user_id ++ ")"

/-- Result of one run of the `/list` handler. -/
structure ListResult where
  replies : List String
  storeRead : Bool
deriving DecidableEq

/-- `cmd_list` — the admin listing.  Callers with no sender or a sender
outside `ADMIN_IDS` are ignored before any store access; otherwise the
whole listing is rendered and sent as one message. -/
def cmd_list (adminIds : List Nat) (db : DB) (fromUser : Option User) : ListResult :=
  match fromUser with
  | none => ⟨[], false⟩
  | some user =>
    if user.id ∈ adminIds then
      let rows := list_participants db
      if rows.isEmpty then ⟨["Участников пока нет."], true⟩
      else
        ⟨["Список участников:\n\n" ++ String.intercalate "\n" (rows.map renderLine)],
         true⟩
    else ⟨[], false⟩

/-- The three classes the dispatcher's filters realise. -/
inductive EventClass where
  | start
  | adminList
  | unhandled
deriving DecidableEq

/-- First token of the message text, as aiogram's command filter obtains
it via Python's `text.split(maxsplit=1)`: leading whitespace is dropped
and the token runs to the next whitespace character. -/
def firstToken (t : String) : List Char :=
  (t.data.dropWhile Char.isWhitespace).takeWhile (fun c => !c.isWhitespace)

/-- The command part of the token after the `/` prefix: everything before
the first `@` (Python's `full_command[1:].partition("@")`). -/
def commandOf (rest : List Char) : String :=
  String.mk (rest.takeWhile (· ≠ '@'))

/-- The mention part of the token: everything after the first `@`
(empty when no `@` is present). -/
def mentionOf (rest : List Char) : List Char :=
  (rest.dropWhile (· ≠ '@')).drop 1

/-- ASCII lowering, modelling Python's `str.lower()` on ASCII usernames. -/
def lowerStr (s : List Char) : List Char :=
  s.map Char.toLower

/-- aiogram's mention validation: an empty mention passes, otherwise the
mention must equal the bot's own username, compared case-insensitively
(and with no configured username nothing is checked). -/
def mentionOk (botUsername : String) (mention : List Char) : Bool :=
  mention.isEmpty || botUsername == "" || lowerStr mention == lowerStr botUsername.data

/-- Classification realised by the registered filters `CommandStart()` and
`Command ("list")`: the first whitespace-delimited token must begin with
the `/` prefix, carry no foreign bot mention, and name one of the two
commands (compared case-sensitively, aiogram's default); every other
message falls through silently. -/
def classify (botUsername : String) (text : Option String) : EventClass :=
  match text with
  | none => .unhandled
  | some t =>
    match firstToken t with
    | [] => .unhandled
    | p :: rest =>
      if p = '/' then
        if mentionOk botUsername (mentionOf rest) then
          if commandOf rest = "start" then .start
          else if commandOf rest = "list" then .adminList
          else .unhandled
        else .unhandled
      else .unhandled

/-- The dispatcher: routes one event to at most one handler according to
`classify` and returns the new table state with the replies sent. -/
def dispatch (botUsername : String) (gate : GateResult) (adminIds : List Nat)
    (db : DB) (fromUser : Option User) (text : Option String) : DB × List String :=
  match classify botUsername text with
  | .start => let r := cmd_start gate db fromUser; (r.db, r.replies)
  | .adminList => (db, (cmd_list adminIds db fromUser).replies)
  | .unhandled => (db, [])

/-! ### Helper lemmas about the store -/

theorem get_participant_eq_none (db : DB) (uid : Nat)
    (h : countRows db uid = 0) : get_participant db uid = none := by
  unfold countRows at h
  unfold get_participant
  rw [List.find?_eq_none]
  intro x hx
  exact List.countP_eq_zero.mp h x hx

theorem exists_row_of_countRows_pos (db : DB) (uid : Nat)
    (h : 0 < countRows db uid) :
    ∃ p, get_participant db uid = some p ∧ p.user_id = uid := by
  unfold countRows at h
  have hex : ∃ x, x ∈ db.rows ∧ byUser uid x := by
    by_contra hc
    push_neg at hc
    have h0 : db.rows.countP (byUser uid) = 0 :=
      List.countP_eq_zero.mpr fun a ha => by
        intro hb
        exact hc a ha hb
    omega
  have hs : (db.rows.find? (byUser uid)).isSome := List.find?_isSome.mpr hex
  obtain ⟨p, hp⟩ := Option.isSome_iff_exists.mp hs
  refine ⟨p, hp, ?_⟩
  have := List.find?_some hp
  simpa [byUser] using this

theorem cmd_start_db_eq_of_gate_false (g : GateResult) (db : DB) (u : Option User)
    (h : check_subscription g = false) : (cmd_start g db u).db = db := by
  cases u with
  | none => rfl
  | some user =>
    unfold cmd_start
    cases hf : get_participant db user.id with
    | none => simp [hf, h]
    | some row => simp [hf]

/-! ### Claim theorems -/

/-- C10: an inbound message with no sender makes both handlers return
immediately: no reply, no gate call, no store read, no store write. -/
theorem c10_no_sender_silence (g : GateResult) (adminIds : List Nat) (db : DB) :
    cmd_start g db none = ⟨db, [], none, false, false, false⟩ ∧
    cmd_list adminIds db none = ⟨[], false⟩ :=
  ⟨rfl, rfl⟩

/-- C7: a requester outside the admin allow-set gets zero outbound
messages from the admin-list command, and the store is not read. -/
theorem c7_admin_silence (adminIds : List Nat) (db : DB) (u : User)
    (h : u.id ∉ adminIds) :
    cmd_list adminIds db (some u) = ⟨[], false⟩ := by
  unfold cmd_list
  simp [h]

/-- Witness for C7 at a concrete non-admin caller. -/
theorem c7_admin_silence_witness :
    cmd_list [1, 2] ⟨[⟨1, 5, none, none, none⟩], 2⟩ (some ⟨9, none, none, none⟩) =
      ⟨[], false⟩ :=
  c7_admin_silence [1, 2] ⟨[⟨1, 5, none, none, none⟩], 2⟩ ⟨9, none, none, none⟩
    (by decide)

/-- C2: the gate is fail-closed — an exception maps to `false`, any status
outside creator/administrator/member/restricted maps to `false`, and on a
false gate the workflow leaves the table untouched, writes nothing, and
replies with the standard subscribe instruction rather than an error. -/
theorem c2_fail_closed_gate :
    check_subscription .error = false ∧
    (∀ s : ChatMemberStatus,
        s ≠ .creator → s ≠ .administrator → s ≠ .member → s ≠ .restricted →
        check_subscription (.ok s) = false) ∧
    (∀ (g : GateResult) (db : DB) (u : User), check_subscription g = false →
        (cmd_start g db (some u)).db = db ∧
        (cmd_start g db (some u)).storeWritten = false) ∧
    (∀ (g : GateResult) (db : DB) (u : User), check_subscription g = false →
        get_participant db u.id = none →
        cmd_start g db (some u) = ⟨db, [subscribeMessage], none, true, true, false⟩) := by
  refine ⟨rfl, ?_, ?_, ?_⟩
  · intro s h1 h2 h3 h4
    cases s <;> simp_all [check_subscription]
  · intro g db u hg
    constructor
    · exact cmd_start_db_eq_of_gate_false g db (some u) hg
    · unfold cmd_start
      cases hf : get_participant db u.id with
      | none => simp [hf, hg]
      | some row => simp [hf]
  · intro g db u hg hnone
    unfold cmd_start
    simp [hnone, hg]

/-- Witness for C2: a concrete errored gate call on an empty table. -/
theorem c2_fail_closed_gate_witness :
    check_subscription (.ok .left) = false ∧
    cmd_start .error ⟨[], 1⟩ (some ⟨5, none, none, none⟩) =
      ⟨⟨[], 1⟩, [subscribeMessage], none, true, true, false⟩ :=
  ⟨c2_fail_closed_gate.2.1 .left (by decide) (by decide) (by decide) (by decide),
   c2_fail_closed_gate.2.2.2 .error ⟨[], 1⟩ ⟨5, none, none, none⟩ (by decide) (by decide)⟩

/-- After a fresh insert for `u`, looking `u.id` up finds exactly the new
row, and the table holds exactly one row for `u.id`. -/
theorem get_participant_after_insert (db : DB) (u : User)
    (h : countRows db u.id = 0) :
    get_participant (add_participant db u).2 u.id =
      some ⟨db.nextId, u.id, u.username, u.first_name, u.last_name⟩ ∧
    (add_participant db u).1 = db.nextId ∧
    countRows (add_participant db u).2 u.id = 1 := by
  have hnone : get_participant db u.id = none := get_participant_eq_none db u.id h
  unfold get_participant at hnone ⊢
  unfold add_participant
  rw [hnone]
  refine ⟨?_, rfl, ?_⟩
  · simp [List.find?_append, hnone, List.find?, byUser]
  · unfold countRows at h ⊢
    simp [h, byUser]

/-- C1: an identity already present in the store takes the fast path — the
existing number is emitted, the gate is not called, nothing is written —
and two gate-passing invocations in a row show the same sequence number
both times and leave exactly one row for the identity. -/
theorem c1_idempotent_registration (g g1 g2 : GateResult) (db : DB) (u : User)
    (hcount : countRows db u.id ≤ 1)
    (hg1 : check_subscription g1 = true) (hg2 : check_subscription g2 = true) :
    (∀ p, get_participant db u.id = some p →
        cmd_start g db (some u) =
          ⟨db, [alreadyMessage p.id], some p.id, false, true, false⟩) ∧
    (∃ n, (cmd_start g1 db (some u)).shownNumber = some n ∧
          (cmd_start g2 (cmd_start g1 db (some u)).db (some u)).shownNumber = some n) ∧
    countRows (cmd_start g2 (cmd_start g1 db (some u)).db (some u)).db u.id = 1 := by
  have fast : ∀ (g' : GateResult) (p : Participant), get_participant db u.id = some p →
      cmd_start g' db (some u) =
        ⟨db, [alreadyMessage p.id], some p.id, false, true, false⟩ := by
    intro g' p hp
    simp [cmd_start, hp]
  refine ⟨fun p hp => fast g p hp, ?_⟩
  rcases Nat.lt_or_ge 0 (countRows db u.id) with hpos | hzero
  · -- the identity is already registered: both invocations take the fast path
    obtain ⟨p, hp, _⟩ := exists_row_of_countRows_pos db u.id hpos
    have hdb : (cmd_start g1 db (some u)).db = db := by rw [fast g1 p hp]
    refine ⟨⟨p.id, ?_, ?_⟩, ?_⟩
    · rw [fast g1 p hp]
    · rw [hdb, fast g2 p hp]
    · rw [hdb, fast g2 p hp]
      show countRows db u.id = 1
      omega
  · -- the identity is fresh: the first invocation inserts, the second
    -- finds the inserted row
    have hzero' : countRows db u.id = 0 := by omega
    have hnone : get_participant db u.id = none := get_participant_eq_none db u.id hzero'
    obtain ⟨hfind, hnum, hcnt⟩ := get_participant_after_insert db u hzero'
    have h1 : cmd_start g1 db (some u) =
        ⟨(add_participant db u).2,
         [congratsMessage (mention u) (add_participant db u).1],
         some (add_participant db u).1, true, true, true⟩ := by
      simp [cmd_start, hnone, hg1]
    have h2 : cmd_start g2 (add_participant db u).2 (some u) =
        ⟨(add_participant db u).2, [alreadyMessage db.nextId], some db.nextId,
         false, true, false⟩ := by
      simp [cmd_start, hfind]
    have hdb : (cmd_start g1 db (some u)).db = (add_participant db u).2 := by rw [h1]
    refine ⟨⟨db.nextId, ?_, ?_⟩, ?_⟩
    · rw [h1]
      show some (add_participant db u).1 = some db.nextId
      rw [hnum]
    · rw [hdb, h2]
    · rw [hdb, h2]
      exact hcnt

/-- Witness for C1 at a concrete fresh identity and a member gate. -/
theorem c1_idempotent_registration_witness :
    (∃ n, (cmd_start (.ok .member) ⟨[], 1⟩ (some ⟨5, none, none, none⟩)).shownNumber = some n ∧
        (cmd_start (.ok .member)
            (cmd_start (.ok .member) ⟨[], 1⟩ (some ⟨5, none, none, none⟩)).db
            (some ⟨5, none, none, none⟩)).shownNumber = some n) ∧
    countRows (cmd_start (.ok .member)
        (cmd_start (.ok .member) ⟨[], 1⟩ (some ⟨5, none, none, none⟩)).db
        (some ⟨5, none, none, none⟩)).db 5 = 1 :=
  (c1_idempotent_registration (.ok .member) (.ok .member) (.ok .member)
      ⟨[], 1⟩ ⟨5, none, none, none⟩ (by decide) (by decide) (by decide)).2

/-- A row lookup that misses means the table has no row for that id. -/
theorem countRows_eq_zero_of_get_participant_eq_none (db : DB) (uid : Nat)
    (h : get_participant db uid = none) : countRows db uid = 0 := by
  unfold get_participant at h
  unfold countRows
  rw [List.find?_eq_none] at h
  exact List.countP_eq_zero.mpr h

/-- Repeated `/start` attempts of one user, each against the recorded gate
response, threading the table state. -/
def retries (gates : List GateResult) (db : DB) (u : User) : DB :=
  gates.foldl (fun d g => (cmd_start g d (some u)).db) db

/-- Failing attempts leave the table untouched, however many there are. -/
theorem retries_eq_self (gates : List GateResult) (db : DB) (u : User)
    (hfail : ∀ g ∈ gates, check_subscription g = false) :
    retries gates db u = db := by
  induction gates generalizing db with
  | nil => rfl
  | cons g gs ih =>
    unfold retries
    rw [List.foldl_cons]
    rw [cmd_start_db_eq_of_gate_false g db (some u) (hfail g (List.mem_cons_self g gs))]
    exact ih db fun g' hg' => hfail g' (List.mem_cons_of_mem g hg')

/-- C3: gate-failing invocations write nothing, and after any number of
them one passing invocation behaves exactly as a first-time pass would —
one row for the identity, numbered by the state before the failures. -/
theorem c3_no_side_effect_on_rejection (gates : List GateResult) (db : DB)
    (u : User) (gp : GateResult)
    (hfail : ∀ g ∈ gates, check_subscription g = false)
    (h0 : countRows db u.id = 0)
    (hgp : check_subscription gp = true) :
    retries gates db u = db ∧
    cmd_start gp (retries gates db u) (some u) = cmd_start gp db (some u) ∧
    countRows (cmd_start gp (retries gates db u) (some u)).db u.id = 1 ∧
    (cmd_start gp (retries gates db u) (some u)).shownNumber = some db.nextId := by
  have hr : retries gates db u = db := retries_eq_self gates db u hfail
  have hnone : get_participant db u.id = none := get_participant_eq_none db u.id h0
  obtain ⟨_, hnum, hcnt⟩ := get_participant_after_insert db u h0
  have hrun : cmd_start gp db (some u) =
      ⟨(add_participant db u).2,
       [congratsMessage (mention u) (add_participant db u).1],
       some (add_participant db u).1, true, true, true⟩ := by
    simp [cmd_start, hnone, hgp]
  refine ⟨hr, by rw [hr], ?_, ?_⟩
  · rw [hr, hrun]
    exact hcnt
  · rw [hr, hrun]
    show some (add_participant db u).1 = some db.nextId
    rw [hnum]

/-- Witness for C3: three errored attempts on an empty table, then a pass. -/
theorem c3_no_side_effect_on_rejection_witness :
    retries [.error, .error, .error] ⟨[], 1⟩ ⟨5, none, none, none⟩ = ⟨[], 1⟩ ∧
    countRows (cmd_start (.ok .member)
        (retries [.error, .error, .error] ⟨[], 1⟩ ⟨5, none, none, none⟩)
        (some ⟨5, none, none, none⟩)).db 5 = 1 := by
  have h := c3_no_side_effect_on_rejection [.error, .error, .error] ⟨[], 1⟩
    ⟨5, none, none, none⟩ (.ok .member) (by decide) (by decide) (by decide)
  exact ⟨h.1, h.2.2.1⟩

/-- In a list holding at most one element satisfying `p`, two members
satisfying `p` coincide. -/
theorem countP_le_one_unique {α : Type} (p : α → Bool) :
    ∀ l : List α, l.countP p ≤ 1 →
      ∀ a ∈ l, ∀ b ∈ l, p a = true → p b = true → a = b := by
  intro l
  induction l with
  | nil =>
    intro _ a ha
    cases ha
  | cons x xs ih =>
    intro h a ha b hb hpa hpb
    rw [List.countP_cons] at h
    rcases List.mem_cons.mp ha with rfl | ha'
    · rcases List.mem_cons.mp hb with rfl | hb'
      · rfl
      · exfalso
        simp [hpa] at h
        rw [h b hb'] at hpb
        cases hpb
    · rcases List.mem_cons.mp hb with rfl | hb'
      · exfalso
        simp [hpb] at h
        rw [h a ha'] at hpa
        cases hpa
      · refine ih ?_ a ha' b hb' hpa hpb
        by_cases hpx : p x = true
        · simp [hpx] at h
          have h0 : xs.countP p = 0 :=
            List.countP_eq_zero.mpr fun c hc => by rw [h c hc]; simp
          omega
        · simp [hpx] at h
          exact h

/-- C4: the upsert creates a fresh row carrying the next sequence value
when the id is absent; when present it returns the existing row's number,
keeps every row's `id` and `user_id`, leaves rows of other users in
place, and overwrites exactly the display fields of the matching row;
and it keeps the table free of duplicate `user_id`s. -/
theorem c4_upsert_semantics (db : DB) (u : User)
    (hwf : ∀ v, countRows db v ≤ 1) :
    (get_participant db u.id = none →
        (add_participant db u).1 = db.nextId ∧
        (add_participant db u).2.rows =
          db.rows ++ [⟨db.nextId, u.id, u.username, u.first_name, u.last_name⟩]) ∧
    (∀ p, get_participant db u.id = some p →
        (add_participant db u).1 = p.id ∧
        (add_participant db u).2.rows.map (fun q => (q.id, q.user_id)) =
          db.rows.map (fun q => (q.id, q.user_id)) ∧
        (∀ q ∈ (add_participant db u).2.rows,
            byUser u.id q = false → q ∈ db.rows) ∧
        (∀ q ∈ (add_participant db u).2.rows, byUser u.id q = true →
            q = { p with username := u.username, first_name := u.first_name,
                         last_name := u.last_name })) ∧
    (∀ v, countRows (add_participant db u).2 v ≤ 1) := by
  refine ⟨?_, ?_, ?_⟩
  · intro hnone
    unfold get_participant at hnone
    unfold add_participant
    rw [hnone]
    exact ⟨rfl, rfl⟩
  · intro p hp
    unfold get_participant at hp
    unfold add_participant
    rw [hp]
    refine ⟨rfl, ?_, ?_, ?_⟩
    · show (db.rows.map _).map _ = _
      rw [List.map_map]
      refine List.map_congr_left ?_
      intro a _
      by_cases hb : a.user_id = u.id <;> simp [byUser, Function.comp, hb]
    · intro q hq hfalse
      obtain ⟨a, ha, rfl⟩ := List.mem_map.mp hq
      by_cases hb : byUser u.id a
      · exfalso
        rw [if_pos hb] at hfalse
        simp [byUser] at hfalse hb
        exact absurd hb hfalse
      · rw [if_neg hb]
        exact ha
    · intro q hq htrue
      obtain ⟨a, ha, rfl⟩ := List.mem_map.mp hq
      by_cases hb : byUser u.id a
      · have hle : db.rows.countP (byUser u.id) ≤ 1 := hwf u.id
        have hap : a = p :=
          countP_le_one_unique (byUser u.id) db.rows hle a ha p
            (List.mem_of_find?_eq_some hp) hb (List.find?_some hp)
        rw [if_pos hb, hap]
      · rw [if_neg hb] at htrue
        exact absurd htrue hb
  · intro v
    unfold add_participant
    cases hf : db.rows.find? (byUser u.id) with
    | none =>
      have h0 : countRows db u.id = 0 :=
        countRows_eq_zero_of_get_participant_eq_none db u.id hf
      unfold countRows at h0 hwf ⊢
      show (db.rows ++ [_]).countP (byUser v) ≤ 1
      rw [List.countP_append, List.countP_singleton]
      by_cases hv : byUser v (⟨db.nextId, u.id, u.username, u.first_name, u.last_name⟩ : Participant)
      · have huv : u.id = v := by simpa [byUser] using hv
        rw [huv] at h0
        simp [hv, h0]
      · simp [hv]
        exact hwf v
    | some p =>
      unfold countRows at hwf ⊢
      show (db.rows.map _).countP (byUser v) ≤ 1
      rw [List.countP_map]
      have : ∀ a ∈ db.rows,
          (byUser v ∘ fun q => if byUser u.id q then
              { q with username := u.username, first_name := u.first_name,
                       last_name := u.last_name } else q) a = byUser v a := by
        intro a _
        by_cases hb : a.user_id = u.id <;> simp [byUser, Function.comp, hb]
      rw [List.countP_congr fun a ha => by rw [this a ha]]
      exact hwf v

/-- Witness for C4: insert into an empty table, then upsert again. -/
theorem c4_upsert_semantics_witness :
    (add_participant ⟨[], 1⟩ ⟨5, some "a", none, none⟩).1 = 1 ∧
    (add_participant ⟨[], 1⟩ ⟨5, some "a", none, none⟩).2.rows =
      [⟨1, 5, some "a", none, none⟩] ∧
    countRows (add_participant ⟨[], 1⟩ ⟨5, some "a", none, none⟩).2 5 ≤ 1 := by
  have h := c4_upsert_semantics ⟨[], 1⟩ ⟨5, some "a", none, none⟩ (by intro v; simp [countRows])
  have h1 := h.1 (by decide)
  exact ⟨h1.1, h1.2, h.2.2 5⟩

/-- A gate-passing `/start` of an unregistered user appends one row
carrying the current sequence value, advances the sequence, and shows that
value to the user. -/
theorem cmd_start_fresh (g : GateResult) (db : DB) (u : User)
    (h0 : countRows db u.id = 0) (hg : check_subscription g = true) :
    (cmd_start g db (some u)).db.rows =
      db.rows ++ [⟨db.nextId, u.id, u.username, u.first_name, u.last_name⟩] ∧
    (cmd_start g db (some u)).db.nextId = db.nextId + 1 ∧
    (cmd_start g db (some u)).shownNumber = some db.nextId := by
  have hnone : get_participant db u.id = none := get_participant_eq_none db u.id h0
  have hfind : db.rows.find? (byUser u.id) = none := hnone
  simp [cmd_start, hnone, add_participant, hfind, hg]

/-- C5: three distinct fresh identities that register successfully in
order receive strictly increasing sequence numbers matching arrival
order, and the listing is always a permutation of the table sorted by
sequence number ascending. -/
theorem c5_monotonic_numbering (g1 g2 g3 : GateResult) (db : DB)
    (u1 u2 u3 : User)
    (h12 : u1.id ≠ u2.id) (h13 : u1.id ≠ u3.id) (h23 : u2.id ≠ u3.id)
    (e1 : countRows db u1.id = 0) (e2 : countRows db u2.id = 0)
    (e3 : countRows db u3.id = 0)
    (hg1 : check_subscription g1 = true) (hg2 : check_subscription g2 = true)
    (hg3 : check_subscription g3 = true) :
    (∃ n1 n2 n3,
        (cmd_start g1 db (some u1)).shownNumber = some n1 ∧
        (cmd_start g2 (cmd_start g1 db (some u1)).db (some u2)).shownNumber = some n2 ∧
        (cmd_start g3 (cmd_start g2 (cmd_start g1 db (some u1)).db (some u2)).db
            (some u3)).shownNumber = some n3 ∧
        n1 < n2 ∧ n2 < n3) ∧
    (∀ d : DB, (list_participants d).Perm d.rows ∧
        List.Sorted leById (list_participants d)) := by
  obtain ⟨hr1, hn1, hs1⟩ := cmd_start_fresh g1 db u1 e1 hg1
  have c2 : countRows (cmd_start g1 db (some u1)).db u2.id = 0 := by
    unfold countRows at e2 ⊢
    rw [hr1, List.countP_append, List.countP_singleton]
    simp [byUser, h12, e2]
  have c3 : countRows (cmd_start g1 db (some u1)).db u3.id = 0 := by
    unfold countRows at e3 ⊢
    rw [hr1, List.countP_append, List.countP_singleton]
    simp [byUser, h13, e3]
  obtain ⟨hr2, hn2, hs2⟩ :=
    cmd_start_fresh g2 (cmd_start g1 db (some u1)).db u2 c2 hg2
  have c3' : countRows (cmd_start g2 (cmd_start g1 db (some u1)).db (some u2)).db
      u3.id = 0 := by
    unfold countRows at c3 ⊢
    rw [hr2, List.countP_append, List.countP_singleton]
    simp [byUser, h23, c3]
  obtain ⟨hr3, hn3, hs3⟩ :=
    cmd_start_fresh g3 (cmd_start g2 (cmd_start g1 db (some u1)).db (some u2)).db
      u3 c3' hg3
  refine ⟨⟨db.nextId, db.nextId + 1, db.nextId + 2, hs1, ?_, ?_, by omega, by omega⟩, ?_⟩
  · rw [hs2, hn1]
  · rw [hs3, hn2, hn1]
  · intro d
    constructor
    · exact List.perm_insertionSort leById d.rows
    · exact List.sorted_insertionSort leById d.rows

/-- Witness for C5: three fresh identities on an empty table. -/
theorem c5_monotonic_numbering_witness :
    ∃ n1 n2 n3,
        (cmd_start (.ok .member) ⟨[], 1⟩ (some ⟨1, none, none, none⟩)).shownNumber =
          some n1 ∧
        (cmd_start (.ok .member)
            (cmd_start (.ok .member) ⟨[], 1⟩ (some ⟨1, none, none, none⟩)).db
            (some ⟨2, none, none, none⟩)).shownNumber = some n2 ∧
        (cmd_start (.ok .member)
            (cmd_start (.ok .member)
              (cmd_start (.ok .member) ⟨[], 1⟩ (some ⟨1, none, none, none⟩)).db
              (some ⟨2, none, none, none⟩)).db
            (some ⟨3, none, none, none⟩)).shownNumber = some n3 ∧
        n1 < n2 ∧ n2 < n3 :=
  (c5_monotonic_numbering (.ok .member) (.ok .member) (.ok .member) ⟨[], 1⟩
      ⟨1, none, none, none⟩ ⟨2, none, none, none⟩ ⟨3, none, none, none⟩
      (by decide) (by decide) (by decide) (by decide) (by decide) (by decide)
      (by decide) (by decide) (by decide)).1

/-- If `takeWhile` yields a cons, the underlying list starts with the same
head. -/
theorem head_of_takeWhile {α : Type} (p : α → Bool) (l : List α) (a : α)
    (t : List α) (h : l.takeWhile p = a :: t) : ∃ t', l = a :: t' := by
  cases l with
  | nil => simp at h
  | cons b bs =>
    rw [List.takeWhile_cons] at h
    by_cases hb : p b
    · rw [if_pos hb] at h
      injection h with h1 _
      exact ⟨bs, by rw [h1]⟩
    · rw [if_neg hb] at h
      cases h

/-- Only messages whose first non-whitespace character is the `/` prefix
are ever handled: the command filter drops leading whitespace and then
demands the prefix on the token's first character. -/
theorem classify_head (botUsername : String) (t : String)
    (h : classify botUsername (some t) ≠ .unhandled) :
    (t.data.dropWhile Char.isWhitespace).head? = some '/' := by
  cases hft : firstToken t with
  | nil => exact absurd (by simp [classify, hft]) h
  | cons p rest =>
    by_cases hp : p = '/'
    · subst hp
      unfold firstToken at hft
      obtain ⟨t', ht'⟩ := head_of_takeWhile _ _ _ _ hft
      rw [ht']
      rfl
    · exact absurd (by simp [classify, hft, hp]) h

/-- C6 (amended): the dispatcher classifies every event into exactly one
of three classes — start trigger, admin-list command, unhandled — invokes
at most the one matching handler, and a message whose first
non-whitespace character is not the `/` command prefix is always
unhandled (there is no free-text trigger phrase). -/
theorem c6_three_way_dispatch (botUsername : String) (gate : GateResult)
    (adminIds : List Nat) (db : DB) (fromUser : Option User)
    (text : Option String) :
    (classify botUsername text = .start ∨
      classify botUsername text = .adminList ∨
      classify botUsername text = .unhandled) ∧
    (classify botUsername text = .start →
        dispatch botUsername gate adminIds db fromUser text =
          ((cmd_start gate db fromUser).db, (cmd_start gate db fromUser).replies)) ∧
    (classify botUsername text = .adminList →
        dispatch botUsername gate adminIds db fromUser text =
          (db, (cmd_list adminIds db fromUser).replies)) ∧
    (classify botUsername text = .unhandled →
        dispatch botUsername gate adminIds db fromUser text = (db, [])) ∧
    (∀ t : String, (t.data.dropWhile Char.isWhitespace).head? ≠ some '/' →
        classify botUsername (some t) = .unhandled) := by
  refine ⟨?_, ?_, ?_, ?_, ?_⟩
  · cases classify botUsername text with
    | start => exact Or.inl rfl
    | adminList => exact Or.inr (Or.inl rfl)
    | unhandled => exact Or.inr (Or.inr rfl)
  · intro hc
    unfold dispatch
    rw [hc]
  · intro hc
    unfold dispatch
    rw [hc]
  · intro hc
    unfold dispatch
    rw [hc]
  · intro t ht
    by_contra hc
    exact ht (classify_head botUsername t hc)

/-- Witness for C6 (amended) at a concrete `/list` event and a free-text
message. -/
theorem c6_three_way_dispatch_witness :
    classify "mmbot" (some "/list") = .adminList ∧
    dispatch "mmbot" .error [] ⟨[], 1⟩ (some ⟨5, none, none, none⟩)
        (some "/list") =
      (⟨[], 1⟩, (cmd_list [] ⟨[], 1⟩ (some ⟨5, none, none, none⟩)).replies) ∧
    classify "mmbot" (some "привет") = .unhandled :=
  ⟨by decide,
   (c6_three_way_dispatch "mmbot" .error [] ⟨[], 1⟩ (some ⟨5, none, none, none⟩)
       (some "/list")).2.2.1 (by decide),
   (c6_three_way_dispatch "mmbot" .error [] ⟨[], 1⟩ (some ⟨5, none, none, none⟩)
       (some "привет")).2.2.2.2 "привет" (by decide)⟩

/-- C6 counterexample: the dispatcher has no free-text trigger class —
keyword-like plain messages, in either case, are silently unhandled and
invoke no workflow; registration is invoked by the `/start` command,
also with leading whitespace or the bot's own mention in any case, while
a foreign bot's mention is ignored. -/
theorem c6_counterexample :
    classify "mmbot" (some "участвую") = .unhandled ∧
    classify "mmbot" (some "УЧАСТВУЮ") = .unhandled ∧
    dispatch "mmbot" .error [] ⟨[], 1⟩ (some ⟨5, none, none, none⟩)
        (some "участвую") = (⟨[], 1⟩, []) ∧
    classify "mmbot" (some "/start") = .start ∧
    classify "mmbot" (some " /start") = .start ∧
    classify "mmbot" (some "/start@MMBot") = .start ∧
    classify "mmbot" (some "/start@otherbot") = .unhandled := by
  decide

/-- For an authorized caller and a non-empty table, the listing is one
message: the header followed by every rendered line. -/
theorem cmd_list_admin_replies (adminIds : List Nat) (db : DB) (u : User)
    (hadmin : u.id ∈ adminIds) (hne : db.rows ≠ []) :
    (cmd_list adminIds db (some u)).replies =
      ["Список участников:\n\n" ++
        String.intercalate "\n" ((list_participants db).map renderLine)] := by
  have hlp : (list_participants db).isEmpty = false := by
    cases hl : list_participants db with
    | nil =>
      exfalso
      have hperm := List.perm_insertionSort leById db.rows
      rw [show List.insertionSort leById db.rows = list_participants db from rfl,
        hl] at hperm
      exact hne hperm.symm.eq_nil
    | cons a l => rfl
  simp [cmd_list, hadmin, hlp]

/-- C8 (amended): for an authorized caller and a non-empty table the
listing — of any size — is sent as exactly one message holding the header
and every rendered line; no size threshold is checked and no splitting or
continuation labelling happens. -/
theorem c8_single_message (adminIds : List Nat) (db : DB) (u : User)
    (hadmin : u.id ∈ adminIds) (hne : db.rows ≠ []) :
    (cmd_list adminIds db (some u)).replies =
      ["Список участников:\n\n" ++
        String.intercalate "\n" ((list_participants db).map renderLine)] ∧
    (cmd_list adminIds db (some u)).replies.length = 1 := by
  have h1 := cmd_list_admin_replies adminIds db u hadmin hne
  exact ⟨h1, by rw [h1]; rfl⟩

/-- Witness for C8 (amended): a one-row table listed by an admin. -/
theorem c8_single_message_witness :
    (cmd_list [7] ⟨[⟨1, 5, some "bob", none, none⟩], 2⟩
        (some ⟨7, none, none, none⟩)).replies.length = 1 :=
  (c8_single_message [7] ⟨[⟨1, 5, some "bob", none, none⟩], 2⟩
      ⟨7, none, none, none⟩ (by decide) (by decide)).2

/-- A username five thousand characters long. -/
def bigName : String :=
  String.mk (List.replicate 5000 'a')

/-- A participant carrying the oversized username. -/
def bigP : Participant :=
  ⟨1, 1, some bigName, none, none⟩

/-- A one-row table whose rendered listing is far beyond any
~4000-character transport limit. -/
def bigDB : DB :=
  ⟨[bigP], 2⟩

theorem bigName_ne_empty : bigName ≠ "" := by
  intro h
  have h2 : List.replicate 5000 'a' = ([] : List Char) := congrArg String.data h
  have h3 : (5000 : Nat) = 0 := by
    rw [← List.length_replicate 5000 'a', h2]
    rfl
  exact absurd h3 (by decide)

theorem bigName_length : bigName.length = 5000 :=
  List.length_replicate 5000 'a'

/-- C8 counterexample: on a table whose rendered listing exceeds the
~4000-character transport limit, the handler still produces exactly one
message, and that single message is itself longer than the limit — the
output is never split. -/
theorem c8_counterexample :
    (cmd_list [7] bigDB (some ⟨7, none, none, none⟩)).replies.length = 1 ∧
    4096 < (String.join (cmd_list [7] bigDB
        (some ⟨7, none, none, none⟩)).replies).length := by
  have hsorted : List.Sorted leById bigDB.rows := by
    show List.Sorted leById [bigP]
    exact List.sorted_singleton bigP
  have hlp : list_participants bigDB = [bigP] :=
    List.Sorted.insertionSort_eq hsorted
  have hreplies := cmd_list_admin_replies [7] bigDB ⟨7, none, none, none⟩
    (by decide) (fun h => List.noConfusion h)
  rw [hlp] at hreplies
  have hmap : List.map renderLine [bigP] = [renderLine bigP] := rfl
  rw [hmap] at hreplies
  have hdn : displayName bigP = "@" ++ bigName := by
    have hb : truthy bigP.username = true := by
      show (bigName != "") = true
      simp [bne_iff_ne, bigName_ne_empty]
    unfold displayName
    rw [if_pos hb]
    rfl
  have hrl : renderLine bigP = "1" ++ ". " ++ ("@" ++ bigName) ++ " (id: " ++
      "1" ++ ")" := by
    unfold renderLine
    rw [hdn]
    rfl
  have hint : String.intercalate "\n" [renderLine bigP] = renderLine bigP := rfl
  rw [hreplies]
  constructor
  · rfl
  · rw [hint, hrl]
    have hjoin : ∀ x : String, String.join [x] = "" ++ x := fun x => rfl
    rw [hjoin]
    simp only [String.length_append]
    have e0 : ("" : String).length = 0 := rfl
    have e1 : ("Список участников:\n\n" : String).length = 20 := rfl
    have e2 : ("1" : String).length = 1 := rfl
    have e3 : (". " : String).length = 2 := rfl
    have e4 : ("@" : String).length = 1 := rfl
    have e5 : (" (id: " : String).length = 6 := rfl
    have e6 : (")" : String).length = 1 := rfl
    rw [e0, e1, e2, e3, e4, e5, e6, bigName_length]
    omega

/-- The first-and-last-name fallback string of the listing renderer. -/
def nameFallback (p : Participant) : String :=
  pyStrip ((p.first_name.getD "") ++ " " ++ (p.last_name.getD ""))

/-- C9 (amended): the listed display name is `"@" + username` when the
username is truthy, else the trimmed name concatenation when non-empty,
else the fixed placeholder `"(без имени)"` — never the raw user id, which
the line shows only in its separate `(id: ...)` suffix. -/
theorem c9_display_name (p : Participant) :
    (∀ s, p.username = some s → s ≠ "" → displayName p = "@" ++ s) ∧
    ((p.username = none ∨ p.username = some "") → nameFallback p ≠ "" →
        displayName p = nameFallback p) ∧
    ((p.username = none ∨ p.username = some "") → nameFallback p = "" →
        displayName p = "(без имени)") := by
  refine ⟨?_, ?_, ?_⟩
  · intro s hs hne
    simp [displayName, truthy, hs, hne]
  · intro hu hne
    rcases hu with hu | hu <;>
      simp [displayName, truthy, nameFallback, hu, hne] at hne ⊢ <;>
      simp [hne]
  · intro hu hz
    rcases hu with hu | hu <;>
      simp [displayName, truthy, nameFallback, hu] <;>
      simp [nameFallback] at hz <;>
      simp [hz]

/-- Witness for C9 (amended): a username participant and a name-only
participant. -/
theorem c9_display_name_witness :
    displayName ⟨1, 2, some "bob", none, none⟩ = "@" ++ "bob" ∧
    displayName ⟨2, 3, none, some "Иван", some "Петров"⟩ =
      nameFallback ⟨2, 3, none, some "Иван", some "Петров"⟩ :=
  ⟨(c9_display_name ⟨1, 2, some "bob", none, none⟩).1 "bob" rfl (by decide),
   (c9_display_name ⟨2, 3, none, some "Иван", some "Петров"⟩).2.1
     (Or.inl rfl) (by decide)⟩

/-- C9 counterexample: a participant with no username and no names is
rendered with the fixed placeholder `"(без имени)"`, not with the raw
external user id as the claim requires. -/
theorem c9_counterexample :
    displayName ⟨1, 42, none, none, none⟩ = "(без имени)" ∧
    displayName ⟨1, 42, none, none, none⟩ ≠ toString (42 : Nat) ∧
    renderLine ⟨1, 42, none, none, none⟩ = "1. (без имени) (id: 42)" := by
  decide

end Giveaway
